import Mathlib

/-!
Shallow embedding of `scripts/convert_csv.py`, the member-roster CSV
converter, together with proofs about the claims of its specification.

Modelling conventions:
* Python strings are modelled as `List Char` (`PyStr`); the inputs of
  interest are ASCII, so `str.lower` is modelled on the ASCII letters and
  `str.strip` / `str.split()` use the ASCII whitespace characters that
  Python treats as whitespace.
* Python `None` for the level is modelled as `Option PyStr`; Python
  truthiness of a string is emptiness.
* Python dicts with string keys are association lists looked up with
  `dictGet`, which models `dict.get(key, default)`.
* File I/O, delimiter detection and CSV parsing are out of scope (the spec
  treats them as external collaborators); the core loop of `convert_csv`
  is modelled as a function over the list of already-parsed input records.
-/

/-- Python strings, modelled as lists of characters. -/
abbrev PyStr := List Char

/-- The ASCII whitespace characters recognised by Python's `str.strip` and
`str.split()`. -/
def pyWhitespace (c : Char) : Bool :=
  c = ' ' || c = '\t' || c = '\n' || c = '\r' || c = '\x0b' || c = '\x0c'

/-- The ASCII uppercase-to-lowercase mapping of `str.lower`. -/
def pyLowerTable : List (Char × Char) :=
  [('A', 'a'), ('B', 'b'), ('C', 'c'), ('D', 'd'), ('E', 'e'), ('F', 'f'),
   ('G', 'g'), ('H', 'h'), ('I', 'i'), ('J', 'j'), ('K', 'k'), ('L', 'l'),
   ('M', 'm'), ('N', 'n'), ('O', 'o'), ('P', 'p'), ('Q', 'q'), ('R', 'r'),
   ('S', 's'), ('T', 't'), ('U', 'u'), ('V', 'v'), ('W', 'w'), ('X', 'x'),
   ('Y', 'y'), ('Z', 'z')]

/-- Character-table lookup, returning the character unchanged when it is
not a key. -/
def charTableGet (tbl : List (Char × Char)) (c : Char) : Char :=
  match tbl with
  | [] => c
  | (k, v) :: rest => if c = k then v else charTableGet rest c

/-- `str.lower` on a single ASCII character. -/
def pyLowerChar (c : Char) : Char := charTableGet pyLowerTable c

/-- `str.lower`. -/
def pyLower (s : PyStr) : PyStr := s.map pyLowerChar

/-- `str.strip()`: remove leading and trailing whitespace. -/
def pyStrip (s : PyStr) : PyStr :=
  (s.dropWhile pyWhitespace).rdropWhile pyWhitespace

/-- Helper for `pySplitWs`: the accumulator holds the current token,
reversed. -/
def pySplitWsAux : PyStr → PyStr → List PyStr
  | [], acc => if acc = [] then [] else [acc.reverse]
  | c :: rest, acc =>
    if pyWhitespace c then
      if acc = [] then pySplitWsAux rest []
      else acc.reverse :: pySplitWsAux rest []
    else pySplitWsAux rest (c :: acc)

/-- `str.split()` with no argument: split on runs of whitespace, dropping
empty tokens. -/
def pySplitWs (s : PyStr) : List PyStr := pySplitWsAux s []

/-- `' '.join(parts)`. -/
def joinSpace : List PyStr → PyStr
  | [] => []
  | [x] => x
  | x :: y :: rest => x ++ ' ' :: joinSpace (y :: rest)

/-- `dict.get(key, default)` over an association list. -/
def dictGet {α : Type} (m : List (PyStr × α)) (k : PyStr) (dflt : α) : α :=
  match m with
  | [] => dflt
  | (k₀, v) :: rest => if k = k₀ then v else dictGet rest k dflt

/-- Sanity check: stripping removes surrounding whitespace. -/
theorem pyStrip_check : pyStrip " ab ".data = "ab".data := by decide

/-- Sanity check: lowercasing maps ASCII uppercase letters. -/
theorem pyLower_check : pyLower "AbC".data = "abc".data := by decide

/-- Sanity check: splitting drops whitespace runs and empty tokens. -/
theorem pySplitWs_check :
    pySplitWs "  a bb  c ".data = ["a".data, "bb".data, "c".data] := by
  decide

/-- Sanity check: joining with single spaces. -/
theorem joinSpace_check : joinSpace ["a".data, "bb".data] = "a bb".data := by
  decide

/-! ## The embedded source functions of `scripts/convert_csv.py` -/

/-- The module-level dict `LEVEL_FEES`: default monthly fees by level, in
Rands. -/
def LEVEL_FEES : List (PyStr × Nat) :=
  [("RR".data, 250), ("R".data, 250), ("Pre level 1".data, 300),
   ("Level 1".data, 350), ("Level 2".data, 400), ("Level 3".data, 450),
   ("Level 4".data, 500), ("Level 5".data, 550),
   ("1".data, 350), ("2".data, 400), ("3".data, 450), ("4".data, 500),
   ("5".data, 550)]

/-- The local dict `level_map` of `normalize_level`: lowercase aliases to
canonical level spellings. -/
def level_map : List (PyStr × PyStr) :=
  [("rr".data, "RR".data), ("r".data, "R".data),
   ("pre level 1".data, "Pre level 1".data),
   ("level 1".data, "Level 1".data), ("level 2".data, "Level 2".data),
   ("level 3".data, "Level 3".data), ("level 4".data, "Level 4".data),
   ("level 5".data, "Level 5".data),
   ("1".data, "Level 1".data), ("2".data, "Level 2".data),
   ("3".data, "Level 3".data), ("4".data, "Level 4".data),
   ("5".data, "Level 5".data)]

/-- `normalize_level(level)`. `None` is modelled as `none`.  Note that the
source checks `level.lower()` against `['inactive', 'none', '']` on the
raw, untrimmed input, and only strips afterwards. -/
def normalize_level (level : PyStr) : Option PyStr :=
  if level = [] ∨ pyLower level = "inactive".data ∨
     pyLower level = "none".data ∨ pyLower level = [] then
    none
  else
    let l := pyStrip level
    some (dictGet level_map (pyLower l) l)

/-- `get_monthly_fee(level)`.  `if not level` is true for `None` and for
the empty string. -/
def get_monthly_fee (level : Option PyStr) : Nat :=
  match level with
  | none => 0
  | some l => if l = [] then 0 else dictGet LEVEL_FEES l 350

/-- `parse_name(full_name, first_name, last_name)`.  The source tests
Python truthiness (non-emptiness) of the raw fields and strips only the
values it returns. -/
def parse_name (full_name first_name last_name : PyStr) : PyStr × PyStr :=
  if first_name ≠ [] ∧ last_name ≠ [] then
    (pyStrip first_name, pyStrip last_name)
  else if full_name ≠ [] then
    match pySplitWs (pyStrip full_name) with
    | p :: q :: rest => (p, joinSpace (q :: rest))
    | [p] => (p, p)
    | [] => ("Unknown".data, "Child".data)
  else
    ("Unknown".data, "Child".data)

/-- `generate_parent_email(first_name, last_name)`: lowercase, drop every
character that is not an ASCII letter, then join with the placeholder
domain. -/
def isAsciiLetter (c : Char) : Bool :=
  ('a' ≤ c && c ≤ 'z') || ('A' ≤ c && c ≤ 'Z')

def generate_parent_email (first_name last_name : PyStr) : PyStr :=
  let f := (pyLower first_name).filter isAsciiLetter
  let l := (pyLower last_name).filter isAsciiLetter
  f ++ '.' :: (l ++ "@placeholder.com".data)

/-- One input record, as the four source columns that `convert_csv` reads
via `row.get(column, '')`: a missing column is the empty string. -/
structure InputRecord where
  fullName : PyStr
  name : PyStr
  surname : PyStr
  level : PyStr
deriving DecidableEq, Repr

/-- One output record: the 18 fixed fields of the output dict literal of
`convert_csv`, in source order. -/
structure OutputRecord where
  firstName : PyStr
  lastName : PyStr
  parentFirstName : PyStr
  parentLastName : PyStr
  parentEmail : PyStr
  parentPhone : PyStr
  level : PyStr
  monthlyFee : PyStr
  status : PyStr
  dateOfBirth : PyStr
  gender : PyStr
  notes : PyStr
  currentBalance : PyStr
  sagfFee : PyStr
  equipmentFee : PyStr
  competitionFee : PyStr
  lastPaymentDate : PyStr
  lastPaymentAmount : PyStr
deriving DecidableEq, Repr

/-- The list `output_columns` of `convert_csv`. -/
def output_columns : List PyStr :=
  ["firstName".data, "lastName".data, "parentFirstName".data,
   "parentLastName".data, "parentEmail".data, "parentPhone".data,
   "level".data, "monthlyFee".data, "status".data, "dateOfBirth".data,
   "gender".data, "notes".data, "currentBalance".data, "sagfFee".data,
   "equipmentFee".data, "competitionFee".data, "lastPaymentDate".data,
   "lastPaymentAmount".data]

/-- The output record as the key/value association written by the CSV
writer, in the fixed column order. -/
def OutputRecord.toAssoc (o : OutputRecord) : List (PyStr × PyStr) :=
  [("firstName".data, o.firstName), ("lastName".data, o.lastName),
   ("parentFirstName".data, o.parentFirstName),
   ("parentLastName".data, o.parentLastName),
   ("parentEmail".data, o.parentEmail), ("parentPhone".data, o.parentPhone),
   ("level".data, o.level), ("monthlyFee".data, o.monthlyFee),
   ("status".data, o.status), ("dateOfBirth".data, o.dateOfBirth),
   ("gender".data, o.gender), ("notes".data, o.notes),
   ("currentBalance".data, o.currentBalance), ("sagfFee".data, o.sagfFee),
   ("equipmentFee".data, o.equipmentFee),
   ("competitionFee".data, o.competitionFee),
   ("lastPaymentDate".data, o.lastPaymentDate),
   ("lastPaymentAmount".data, o.lastPaymentAmount)]

/-- Python truthiness of the normalized level: `None` and the empty string
are falsy. -/
def truthy : Option PyStr → Bool
  | none => false
  | some s => !s.isEmpty

/-- The status derivation inlined in the loop of `convert_csv`:
`if not level or level.lower() in ['inactive', 'none']`. -/
def derive_status (level : Option PyStr) : PyStr :=
  match level with
  | none => "INACTIVE".data
  | some l =>
    if l = [] ∨ pyLower l = "inactive".data ∨ pyLower l = "none".data then
      "INACTIVE".data
    else
      "ACTIVE".data

/-- Decimal rendering of a natural number, for the `f'R{fee}'`
interpolation. -/
def natDigits (n : Nat) : PyStr := Nat.toDigits 10 n

/-- The body of the row loop of `convert_csv`: parse the name, normalize
the level, derive the status, apply the admission rule (skip when the
first name is the literal `'Unknown'` or the last name is empty), and
otherwise build the output dict. `none` models a skipped row. -/
def process_row (row : InputRecord) : Option OutputRecord :=
  let nm := parse_name row.fullName row.name row.surname
  let child_first := nm.1
  let child_last := nm.2
  let level := normalize_level row.level
  let status := derive_status level
  if child_first = "Unknown".data ∨ child_last = [] then
    none
  else
    let parent_email := generate_parent_email child_first child_last
    let monthly_fee := if truthy level then get_monthly_fee level else 0
    some
      { firstName := child_first
        lastName := child_last
        parentFirstName := "Parent".data
        parentLastName := child_last
        parentEmail := parent_email
        parentPhone := []
        level := if truthy level then level.getD [] else "R".data
        monthlyFee := 'R' :: natDigits monthly_fee
        status := status
        dateOfBirth := []
        gender := []
        notes := "Imported from CSV - verify parent contact details".data
        currentBalance := "R0".data
        sagfFee := []
        equipmentFee := []
        competitionFee := []
        lastPaymentDate := []
        lastPaymentAmount := [] }

/-- The core of `convert_csv` over the already-parsed input records:
the emitted output records in input order, the `rows_converted` counter
and the `rows_skipped` counter. -/
def convert_csv : List InputRecord → List OutputRecord × Nat × Nat
  | [] => ([], 0, 0)
  | row :: rest =>
    let r := convert_csv rest
    match process_row row with
    | some o => (o :: r.1, r.2.1 + 1, r.2.2)
    | none => (r.1, r.2.1, r.2.2 + 1)

/-- Sanity check: the worked scenario of the specification, row
`{Name: "Jane", Surname: "Doe", Level: "Level 2"}`. -/
theorem scenario_jane_doe_check :
    (process_row ⟨[], "Jane".data, "Doe".data, "Level 2".data⟩).map
       (fun o => (o.firstName, o.lastName, o.level, o.monthlyFee, o.status,
                  o.parentEmail)) =
      some ("Jane".data, "Doe".data, "Level 2".data, "R400".data,
            "ACTIVE".data, "jane.doe@placeholder.com".data) := by
  rfl

/-! ## Helper lemmas -/

/-- A character-table lookup in a table whose keys and values are all
non-whitespace does not change whether the character is whitespace. -/
theorem pyWhitespace_charTableGet (tbl : List (Char × Char)) (c : Char)
    (h : ∀ p ∈ tbl, pyWhitespace p.1 = false ∧ pyWhitespace p.2 = false) :
    pyWhitespace (charTableGet tbl c) = pyWhitespace c := by
  induction tbl with
  | nil => rfl
  | cons p rest ih =>
    obtain ⟨k, v⟩ := p
    simp only [charTableGet]
    split
    · rename_i hck
      have h1 := h (k, v) (List.mem_cons_self _ _)
      rw [hck, h1.2, h1.1]
    · exact ih (fun q hq => h q (List.mem_cons_of_mem _ hq))

/-- Lowercasing a character does not change whether it is whitespace. -/
theorem pyWhitespace_pyLowerChar (c : Char) :
    pyWhitespace (pyLowerChar c) = pyWhitespace c :=
  pyWhitespace_charTableGet pyLowerTable c (by decide)

/-- `pyLower` of a string is empty only for the empty string. -/
theorem pyLower_eq_nil_iff (s : PyStr) : pyLower s = [] ↔ s = [] := by
  simp [pyLower]

/-- Stripping is idempotent. -/
theorem pyStrip_idem (s : PyStr) : pyStrip (pyStrip s) = pyStrip s := by
  unfold pyStrip
  have hdrop :
      ((s.dropWhile pyWhitespace).rdropWhile pyWhitespace).dropWhile
          pyWhitespace =
        (s.dropWhile pyWhitespace).rdropWhile pyWhitespace := by
    cases h : (s.dropWhile pyWhitespace).rdropWhile pyWhitespace with
    | nil => simp
    | cons c cs =>
      obtain ⟨rest, hrest⟩ :=
        List.rdropWhile_prefix pyWhitespace (s.dropWhile pyWhitespace)
      rw [h] at hrest
      have h2 := List.head?_dropWhile_not pyWhitespace s
      rw [← hrest] at h2
      have hwsc : pyWhitespace c = false := by simpa using h2
      simp [List.dropWhile_cons, hwsc]
  rw [hdrop, List.rdropWhile_idempotent]

/-- Stripping commutes with lowercasing. -/
theorem pyStrip_pyLower (s : PyStr) :
    pyStrip (pyLower s) = pyLower (pyStrip s) := by
  have hfun : (fun c => pyWhitespace (pyLowerChar c)) = pyWhitespace :=
    funext pyWhitespace_pyLowerChar
  unfold pyStrip pyLower
  rw [List.dropWhile_map]
  unfold List.rdropWhile
  rw [← List.map_reverse, List.dropWhile_map, ← List.map_reverse]
  simp only [Function.comp_def, hfun]

/-- `dict.get` either finds its key, in which case the result is paired
with the key in the table, or returns the default. -/
theorem dictGet_cases {α : Type} (m : List (PyStr × α)) (k : PyStr)
    (d : α) :
    (k, dictGet m k d) ∈ m ∨
      (k ∉ m.map Prod.fst ∧ dictGet m k d = d) := by
  induction m with
  | nil => right; simp [dictGet]
  | cons p rest ih =>
    obtain ⟨k₀, v⟩ := p
    by_cases hk : k = k₀
    · left
      simp only [dictGet, if_pos hk, List.mem_cons]
      exact Or.inl (by rw [hk])
    · rcases ih with h | ⟨h1, h2⟩
      · left
        simp only [dictGet, if_neg hk, List.mem_cons]
        exact Or.inr h
      · right
        refine ⟨?_, ?_⟩
        · simp only [List.map_cons, List.mem_cons]
          push_neg
          exact ⟨hk, h1⟩
        · simp only [dictGet, if_neg hk]
          exact h2

/-- `dict.get` returns the default when the key is not among the keys. -/
theorem dictGet_default {α : Type} (m : List (PyStr × α)) (k : PyStr)
    (dflt : α) (h : k ∉ m.map Prod.fst) : dictGet m k dflt = dflt := by
  induction m with
  | nil => rfl
  | cons p rest ih =>
    obtain ⟨k₀, v⟩ := p
    simp only [List.map_cons, List.mem_cons] at h
    push_neg at h
    simp only [dictGet, if_neg h.1]
    exact ih h.2

/-- Every token produced by `pySplitWsAux` with an empty accumulator is
non-empty; more generally, tokens are only ever emitted from non-empty
accumulators. -/
theorem pySplitWsAux_ne_nil (l : PyStr) :
    ∀ acc t, t ∈ pySplitWsAux l acc → t ≠ [] := by
  induction l with
  | nil =>
    intro acc t ht
    unfold pySplitWsAux at ht
    split at ht
    · simp at ht
    · rename_i hacc
      simp only [List.mem_singleton] at ht
      subst ht
      simpa using hacc
  | cons c rest ih =>
    intro acc t ht
    unfold pySplitWsAux at ht
    split at ht
    · split at ht
      · exact ih [] t ht
      · rename_i hacc
        rcases List.mem_cons.mp ht with h | h
        · subst h
          simpa using hacc
        · exact ih [] t h
    · exact ih (c :: acc) t ht

/-- Joining a list of strings whose head is non-empty is non-empty. -/
theorem joinSpace_cons_ne_nil (q : PyStr) (rest : List PyStr)
    (hq : q ≠ []) : joinSpace (q :: rest) ≠ [] := by
  cases rest with
  | nil => simpa [joinSpace] using hq
  | cons y r => simp [joinSpace]

/-! ## The claims -/

/-- C3, counterexample: the source checks `level.lower()` against
`'inactive'` before stripping, so `' inactive '` (whose trimmed form is
case-insensitively `"inactive"`) is not mapped to absent: it falls
through to the alias lookup and is returned trimmed. -/
theorem C3_counterexample :
    pyLower (pyStrip " inactive ".data) = "inactive".data ∧
    normalize_level " inactive ".data = some "inactive".data := by
  decide

/-- C3 (amended): `normalize_level` returns absent exactly when the raw
level string is empty or its untrimmed lowercased form equals
`"inactive"` or `"none"`. -/
theorem C3_normalize_level_absent (s : PyStr) :
    normalize_level s = none ↔
      s = [] ∨ pyLower s = "inactive".data ∨ pyLower s = "none".data := by
  constructor
  · intro h
    unfold normalize_level at h
    split at h
    · rename_i hcond
      rcases hcond with h1 | h1 | h1 | h1
      · exact Or.inl h1
      · exact Or.inr (Or.inl h1)
      · exact Or.inr (Or.inr h1)
      · exact Or.inl ((pyLower_eq_nil_iff s).mp h1)
    · simp at h
  · intro h
    have hc : s = [] ∨ pyLower s = "inactive".data ∨
        pyLower s = "none".data ∨ pyLower s = [] := by tauto
    unfold normalize_level
    rw [if_pos hc]

/-- C4, counterexample: `normalize_level ' inactive '` yields the
non-absent string `"inactive"`, but normalizing `"inactive"` yields
absent, not `"inactive"`; likewise a whitespace-only input yields the
non-absent empty string, which then normalizes to absent. -/
theorem C4_counterexample :
    normalize_level " inactive ".data = some "inactive".data ∧
    normalize_level "inactive".data = none ∧
    normalize_level " ".data = some [] ∧
    normalize_level [] = none := by
  decide

/-- C4 (amended): `normalize_level` is idempotent on its non-absent
outputs, except on outputs that are empty or lowercase to `"inactive"`
or `"none"` (which a second normalization maps to absent): whenever
`normalize_level s` yields a non-absent `t` that is non-empty and whose
lowercased form is not `"inactive"` or `"none"`, `normalize_level t`
yields `t` itself. -/
theorem C4_normalize_level_idem (s t : PyStr)
    (h : normalize_level s = some t) (ht0 : t ≠ [])
    (ht1 : pyLower t ≠ "inactive".data) (ht2 : pyLower t ≠ "none".data) :
    normalize_level t = some t := by
  unfold normalize_level at h
  split at h
  · simp at h
  · injection h with h
    -- h : dictGet level_map (pyLower (pyStrip s)) (pyStrip s) = t
    rcases dictGet_cases level_map (pyLower (pyStrip s)) (pyStrip s) with
      hmem | ⟨hnk, hd⟩
    · -- the key was found: t is one of the 13 canonical spellings
      rw [h] at hmem
      simp only [level_map, List.mem_cons, List.not_mem_nil, or_false,
        Prod.mk.injEq] at hmem
      rcases hmem with ⟨-, ht⟩ | ⟨-, ht⟩ | ⟨-, ht⟩ | ⟨-, ht⟩ | ⟨-, ht⟩ |
        ⟨-, ht⟩ | ⟨-, ht⟩ | ⟨-, ht⟩ | ⟨-, ht⟩ | ⟨-, ht⟩ | ⟨-, ht⟩ |
        ⟨-, ht⟩ | ⟨-, ht⟩
      all_goals (subst ht; decide)
    · -- the fallback branch: the trimmed string matched no alias key
      rw [hd] at h
      subst h
      have hcond : ¬(pyStrip s = [] ∨
          pyLower (pyStrip s) = "inactive".data ∨
          pyLower (pyStrip s) = "none".data ∨ pyLower (pyStrip s) = []) := by
        push_neg
        refine ⟨ht0, ht1, ht2, ?_⟩
        intro hnil
        exact ht0 ((pyLower_eq_nil_iff _).mp hnil)
      unfold normalize_level
      rw [if_neg hcond]
      exact congrArg some (by rw [pyStrip_idem]
                              exact dictGet_default _ _ _ hnk)

/-- C4 witness: a non-sentinel non-absent output, normalized again,
is unchanged. -/
theorem C4_witness : normalize_level "Level 2".data = some "Level 2".data :=
  C4_normalize_level_idem "level 2".data "Level 2".data (by decide)
    (by decide) (by decide) (by decide)

/-- C5, counterexample: the empty string is a non-absent string that is
not a key of `LEVEL_FEES`, yet `get_monthly_fee` maps it to 0, not to the
claimed default 350 (the source's `if not level` treats the empty string
like `None`). -/
theorem C5_counterexample :
    ([] : PyStr) ∉ LEVEL_FEES.map Prod.fst ∧
    get_monthly_fee (some []) = 0 := by
  decide

/-- C5 (amended): `get_monthly_fee` maps an absent level and the empty
string to 0; maps each key of the fee table (including the bare-digit
keys) to its tabulated fee; and maps every non-absent, non-empty string
that is not a key of the table to the default 350. -/
theorem C5_get_monthly_fee :
    (get_monthly_fee none = 0 ∧ get_monthly_fee (some []) = 0 ∧
     get_monthly_fee (some "RR".data) = 250 ∧
     get_monthly_fee (some "R".data) = 250 ∧
     get_monthly_fee (some "Pre level 1".data) = 300 ∧
     get_monthly_fee (some "Level 1".data) = 350 ∧
     get_monthly_fee (some "Level 2".data) = 400 ∧
     get_monthly_fee (some "Level 3".data) = 450 ∧
     get_monthly_fee (some "Level 4".data) = 500 ∧
     get_monthly_fee (some "Level 5".data) = 550 ∧
     get_monthly_fee (some "1".data) = 350 ∧
     get_monthly_fee (some "2".data) = 400 ∧
     get_monthly_fee (some "3".data) = 450 ∧
     get_monthly_fee (some "4".data) = 500 ∧
     get_monthly_fee (some "5".data) = 550) ∧
    ∀ s : PyStr, s ≠ [] → s ∉ LEVEL_FEES.map Prod.fst →
      get_monthly_fee (some s) = 350 := by
  constructor
  · decide
  · intro s hne hmem
    simp only [get_monthly_fee]
    rw [if_neg hne]
    exact dictGet_default _ _ _ hmem

/-- C5 witness: an unmapped non-empty level string gets the default
fee. -/
theorem C5_witness : get_monthly_fee (some "Acro".data) = 350 :=
  C5_get_monthly_fee.2 "Acro".data (by decide) (by decide)

/-- C6: the derived status is `"INACTIVE"` exactly when the normalized
level is absent, empty, or lowercases to `"inactive"` or `"none"`, and
the status is never any string other than `"ACTIVE"` and `"INACTIVE"`. -/
theorem C6_derive_status :
    derive_status none = "INACTIVE".data ∧
    ∀ s : PyStr,
      (derive_status (some s) = "INACTIVE".data ↔
        s = [] ∨ pyLower s = "inactive".data ∨ pyLower s = "none".data) ∧
      (derive_status (some s) = "INACTIVE".data ∨
       derive_status (some s) = "ACTIVE".data) := by
  refine ⟨rfl, fun s => ⟨⟨?_, ?_⟩, ?_⟩⟩
  · intro h
    simp only [derive_status] at h
    split at h
    · assumption
    · exact absurd h (by decide)
  · intro h
    simp only [derive_status]
    rw [if_pos h]
  · simp only [derive_status]
    split
    · exact Or.inl rfl
    · exact Or.inr rfl

/-- C7: a non-empty raw level whose trimmed lowercased form is not an
alias key and is not `"inactive"`, `"none"` or empty is passed through:
`normalize_level` returns the trimmed, non-lowercased original. -/
theorem C7_normalize_level_fallback (s : PyStr) (hne : s ≠ [])
    (hmem : pyLower (pyStrip s) ∉ level_map.map Prod.fst)
    (h1 : pyLower (pyStrip s) ≠ "inactive".data)
    (h2 : pyLower (pyStrip s) ≠ "none".data)
    (h3 : pyLower (pyStrip s) ≠ []) :
    normalize_level s = some (pyStrip s) := by
  have hls1 : pyLower s ≠ "inactive".data := by
    intro heq
    apply h1
    calc pyLower (pyStrip s) = pyStrip (pyLower s) := (pyStrip_pyLower s).symm
      _ = pyStrip "inactive".data := by rw [heq]
      _ = "inactive".data := by decide
  have hls2 : pyLower s ≠ "none".data := by
    intro heq
    apply h2
    calc pyLower (pyStrip s) = pyStrip (pyLower s) := (pyStrip_pyLower s).symm
      _ = pyStrip "none".data := by rw [heq]
      _ = "none".data := by decide
  have hls3 : pyLower s ≠ [] := fun hnil =>
    hne ((pyLower_eq_nil_iff s).mp hnil)
  have hcond : ¬(s = [] ∨ pyLower s = "inactive".data ∨
      pyLower s = "none".data ∨ pyLower s = []) := by
    push_neg
    exact ⟨hne, hls1, hls2, hls3⟩
  unfold normalize_level
  rw [if_neg hcond]
  exact congrArg some (dictGet_default _ _ _ hmem)

/-- C7 witness: free text that matches no alias is returned trimmed and
otherwise unchanged. -/
theorem C7_witness :
    normalize_level "Acro Team".data = some (pyStrip "Acro Team".data) :=
  C7_normalize_level_fallback "Acro Team".data (by decide) (by decide)
    (by decide) (by decide) (by decide)

/-- Input record with a whitespace-only given name: the truthiness check
of `parse_name` passes, the returned first name strips to empty, and the
admission rule still accepts the row. -/
def cexC1 : InputRecord := ⟨[], " ".data, "Doe".data, "Level 2".data⟩

/-- C1, counterexample: this record is accepted (an Output Record is
emitted) although its first name is the empty string, because
`parse_name` tests the raw fields for truthiness before stripping and the
admission rule only rejects the literal `'Unknown'` or an empty last
name. -/
theorem C1_counterexample :
    (process_row cexC1).map OutputRecord.firstName = some [] := by
  rfl

/-- C1 (amended): every emitted Output Record has a first name that is
not the string `"Unknown"` and a non-empty last name; the first name,
however, can be empty. -/
theorem C1_emitted_names (r : InputRecord) (o : OutputRecord)
    (h : process_row r = some o) :
    o.firstName ≠ "Unknown".data ∧ o.lastName ≠ [] := by
  simp only [process_row] at h
  split at h
  · simp at h
  · rename_i hadm
    push_neg at hadm
    injection h with h
    subst h
    exact ⟨hadm.1, hadm.2⟩

/-- Input record for the C1 witness. -/
def wC1 : InputRecord := ⟨[], "Jane".data, "Doe".data, "Level 2".data⟩

/-- Output record emitted for `wC1`. -/
def wC1out : OutputRecord :=
  { firstName := "Jane".data
    lastName := "Doe".data
    parentFirstName := "Parent".data
    parentLastName := "Doe".data
    parentEmail := "jane.doe@placeholder.com".data
    parentPhone := []
    level := "Level 2".data
    monthlyFee := "R400".data
    status := "ACTIVE".data
    dateOfBirth := []
    gender := []
    notes := "Imported from CSV - verify parent contact details".data
    currentBalance := "R0".data
    sagfFee := []
    equipmentFee := []
    competitionFee := []
    lastPaymentDate := []
    lastPaymentAmount := [] }

/-- C1 witness: a concrete accepted record has a non-`"Unknown"` first
name and a non-empty last name. -/
theorem C1_witness :
    wC1out.firstName ≠ "Unknown".data ∧ wC1out.lastName ≠ [] :=
  C1_emitted_names wC1 wC1out rfl

/-- C2, counterexample: with a whitespace-only given-name field (empty
after trimming, so by the claim the non-empty full name should be split),
`parse_name` instead takes the given/surname branch, because the source
checks truthiness before trimming, and returns an empty first name. -/
theorem C2_counterexample :
    pyStrip " ".data = [] ∧ pyStrip "Bob Smith".data ≠ [] ∧
    parse_name "Bob Smith".data " ".data "Doe".data = ([], "Doe".data) := by
  decide

/-- C2 (amended): `parse_name` returns `(trim(given), trim(surname))`
exactly when both given-name and surname are non-empty before trimming
(Python truthiness); otherwise it splits the trimmed full name on
whitespace and returns (first token, remaining tokens joined by single
spaces) for two or more tokens, (token, token) for exactly one token, and
the sentinel `("Unknown", "Child")` when there are no tokens (including
when the full name is empty).  It never raises: it is a total function. -/
theorem C2_parse_name (f g s : PyStr) :
    (g ≠ [] → s ≠ [] → parse_name f g s = (pyStrip g, pyStrip s)) ∧
    (g = [] ∨ s = [] →
      parse_name f g s =
        match pySplitWs (pyStrip f) with
        | p :: q :: rest => (p, joinSpace (q :: rest))
        | [p] => (p, p)
        | [] => ("Unknown".data, "Child".data)) ∧
    (g = [] ∨ s = [] → parse_name f g s ≠ (pyStrip g, pyStrip s)) := by
  refine ⟨?_, ?_, ?_⟩
  · intro hg hs
    unfold parse_name
    rw [if_pos ⟨hg, hs⟩]
  · intro hgs
    have hc : ¬(g ≠ [] ∧ s ≠ []) := by tauto
    unfold parse_name
    rw [if_neg hc]
    by_cases hf : f = []
    · subst hf
      rfl
    · rw [if_pos hf]
  · intro hgs heq
    have hc : ¬(g ≠ [] ∧ s ≠ []) := by tauto
    unfold parse_name at heq
    rw [if_neg hc] at heq
    have hfirst : (parse_name f g s).1 ≠ [] ∧ (parse_name f g s).2 ≠ [] := by
      unfold parse_name
      rw [if_neg hc]
      by_cases hf : f = []
      · subst hf
        exact ⟨by decide, by decide⟩
      · rw [if_pos hf]
        rcases hsp : pySplitWs (pyStrip f) with _ | ⟨p, _ | ⟨q, rest⟩⟩
        · exact ⟨by decide, by decide⟩
        · have hp : p ≠ [] := pySplitWsAux_ne_nil (pyStrip f) [] p
            (by rw [pySplitWs] at hsp; rw [hsp]; simp)
          exact ⟨hp, hp⟩
        · have hp : p ≠ [] := pySplitWsAux_ne_nil (pyStrip f) [] p
            (by rw [pySplitWs] at hsp; rw [hsp]; simp)
          have hq : q ≠ [] := pySplitWsAux_ne_nil (pyStrip f) [] q
            (by rw [pySplitWs] at hsp; rw [hsp]; simp)
          exact ⟨hp, joinSpace_cons_ne_nil q rest hq⟩
    have heq2 : parse_name f g s = (pyStrip g, pyStrip s) := by
      unfold parse_name
      rw [if_neg hc]
      exact heq
    rcases hgs with hgs | hgs
    · apply hfirst.1
      rw [heq2, hgs]
      rfl
    · apply hfirst.2
      rw [heq2, hgs]
      rfl

/-- C2 witness: with both name fields present, the trimmed fields are
returned. -/
theorem C2_witness :
    parse_name "ignored".data " Jane ".data "Doe".data =
      (pyStrip " Jane ".data, pyStrip "Doe".data) :=
  (C2_parse_name "ignored".data " Jane ".data "Doe".data).1
    (by decide) (by decide)

/-- C9: a record whose given-name column is exactly `'Unknown'` and
whose surname column is non-empty is rejected, even though name
resolution succeeded without taking the sentinel fallback: the admission
rule compares the resolved first name against the literal string
`'Unknown'`. -/
theorem C9_unknown_rejected (r : InputRecord)
    (h1 : r.name = "Unknown".data) (h2 : r.surname ≠ []) :
    process_row r = none := by
  have hne : r.name ≠ [] := by rw [h1]; decide
  have hpn : parse_name r.fullName r.name r.surname =
      (pyStrip r.name, pyStrip r.surname) := by
    unfold parse_name
    rw [if_pos ⟨hne, h2⟩]
  rw [h1] at hpn
  simp only [process_row, h1, hpn]
  rw [if_pos (Or.inl (by decide : pyStrip "Unknown".data = "Unknown".data))]

/-- Input record for the C9 witness: given name `'Unknown'`, non-empty
surname. -/
def wC9 : InputRecord :=
  ⟨"John Smith".data, "Unknown".data, "Smith".data, "Level 1".data⟩

/-- C9 witness: the concrete record is rejected. -/
theorem C9_witness : process_row wC9 = none :=
  C9_unknown_rejected wC9 (by decide) (by decide)

/-- Input record whose level column is whitespace-only: it normalizes to
the non-absent empty string. -/
def cexC8 : InputRecord := ⟨[], "Jane".data, "Doe".data, "   ".data⟩

/-- C8, counterexample: the normalized level here is the non-absent empty
string, yet the emitted `level` field is `"R"` and not that normalized
level, because `level or 'R'` in the source also replaces a falsy (empty)
level string. -/
theorem C8_counterexample :
    normalize_level "   ".data = some [] ∧
    (process_row cexC8).map OutputRecord.level = some "R".data := by
  exact ⟨rfl, rfl⟩

/-- C8 (amended): every accepted row's Output Record has exactly the 18
fixed keys in the fixed order, with `parentFirstName` `"Parent"`,
`parentLastName` equal to the child's last name, empty `parentPhone`,
`level` equal to the normalized level — or `"R"` when the normalized
level is absent *or empty* —, the fixed `notes` text,
`currentBalance` `"R0"`, `monthlyFee` the letter `R` followed by the
decimal rendering of the (non-negative) fee, and empty `dateOfBirth`,
`gender`, `sagfFee`, `equipmentFee`, `competitionFee`,
`lastPaymentDate` and `lastPaymentAmount`. -/
theorem C8_output_shape (r : InputRecord) (o : OutputRecord)
    (h : process_row r = some o) :
    o.toAssoc.map Prod.fst = output_columns ∧
    o.parentFirstName = "Parent".data ∧
    o.parentLastName = o.lastName ∧
    o.parentPhone = [] ∧
    o.level = (match normalize_level r.level with
               | none => "R".data
               | some l => if l = [] then "R".data else l) ∧
    o.notes = "Imported from CSV - verify parent contact details".data ∧
    o.currentBalance = "R0".data ∧
    o.monthlyFee = 'R' :: natDigits (if truthy (normalize_level r.level)
        then get_monthly_fee (normalize_level r.level) else 0) ∧
    o.dateOfBirth = [] ∧ o.gender = [] ∧ o.sagfFee = [] ∧
    o.equipmentFee = [] ∧ o.competitionFee = [] ∧
    o.lastPaymentDate = [] ∧ o.lastPaymentAmount = [] := by
  simp only [process_row] at h
  split at h
  · simp at h
  · injection h with h
    subst h
    refine ⟨rfl, rfl, rfl, rfl, ?_, rfl, rfl, rfl, rfl, rfl, rfl, rfl,
      rfl, rfl, rfl⟩
    rcases hlv : normalize_level r.level with _ | l
    · simp [truthy]
    · by_cases hl : l = []
      · subst hl
        simp [truthy]
      · simp [truthy, hl, List.isEmpty_iff]

/-- Input record for the C8 witness. -/
def wC8 : InputRecord := ⟨[], "Peter".data, "Pan".data, "RR".data⟩

/-- Output record emitted for `wC8`. -/
def wC8out : OutputRecord :=
  { firstName := "Peter".data
    lastName := "Pan".data
    parentFirstName := "Parent".data
    parentLastName := "Pan".data
    parentEmail := "peter.pan@placeholder.com".data
    parentPhone := []
    level := "RR".data
    monthlyFee := "R250".data
    status := "ACTIVE".data
    dateOfBirth := []
    gender := []
    notes := "Imported from CSV - verify parent contact details".data
    currentBalance := "R0".data
    sagfFee := []
    equipmentFee := []
    competitionFee := []
    lastPaymentDate := []
    lastPaymentAmount := [] }

/-- C8 witness: the shape facts hold of the concrete accepted row. -/
theorem C8_witness :
    wC8out.toAssoc.map Prod.fst = output_columns ∧
    wC8out.parentFirstName = "Parent".data ∧ wC8out.level = "RR".data :=
  ⟨(C8_output_shape wC8 wC8out rfl).1, (C8_output_shape wC8 wC8out rfl).2.1,
   (C8_output_shape wC8 wC8out rfl).2.2.2.2.1⟩

/-- C10: over any input sequence, every record is counted exactly once:
the converted and skipped counters sum to the number of input records,
the converted counter equals the number of emitted records, and the
skipped counter equals the number of records not emitted. -/
theorem C10_counters (rs : List InputRecord) :
    (convert_csv rs).2.1 + (convert_csv rs).2.2 = rs.length ∧
    (convert_csv rs).1.length = (convert_csv rs).2.1 ∧
    (convert_csv rs).2.2 = rs.length - (convert_csv rs).1.length := by
  induction rs with
  | nil => exact ⟨rfl, rfl, rfl⟩
  | cons r rest ih =>
    obtain ⟨ih1, ih2, ih3⟩ := ih
    cases h : process_row r with
    | none =>
      simp only [convert_csv, h, List.length_cons]
      exact ⟨by omega, by omega, by omega⟩
    | some o =>
      simp only [convert_csv, h, List.length_cons]
      exact ⟨by omega, by omega, by omega⟩
